import Mathlib

/-!
# cmd/fluent-bit/out_loki.go

A shallow embedding of the fluent-bit output plugin entry points
`FLBPluginInit`, `FLBPluginFlushCtx` and `FLBPluginExit`.

The Go program talks to collaborators that live outside this file: the
fluent-bit host (`output.*`), the msgpack decoder, the clock, and the functions
`parseConfig`, `newPlugin`, `sendRecord` and `client.Stop`.  Their behaviour is a
parameter (`Env`); every call the entry points make to them is recorded, in
program order, as an `Event`, and their mutable state is threaded explicitly.
-/

set_option autoImplicit false
set_option linter.unusedSectionVars false
set_option linter.unnecessarySeqFocus false

namespace OutLoki

/-! ## Host result codes (package `output` of fluent-bit-go) -/

/-- The code `output.FLB_ERROR`: unrecoverable error, do not try this again. -/
def FLB_ERROR : Int := 0

/-- The code `output.FLB_OK`: data have been processed. -/
def FLB_OK : Int := 1

/-- The code `output.FLB_RETRY`: retry to flush later. -/
def FLB_RETRY : Int := 2

/-! ## `time.Time` and `time.Unix` (Go standard library) -/

/-- Seconds from January 1, year 1 to January 1, 1970 (`unixToInternal` of package `time`). -/
def unixToInternal : Int := (1969 * 365 + 1969 / 4 - 1969 / 100 + 1969 / 400) * 86400

/-- Two's complement reduction of an integer to the range of `int64`. -/
def wrapInt64 (i : Int) : Int := (i + 2 ^ 63) % 2 ^ 64 - 2 ^ 63

/-- The Go conversion `int64(t)` of a `uint64` value `t`. -/
def int64OfUint64 (t : Nat) : Int := wrapInt64 ((t % 2 ^ 64 : Nat) : Int)

/-- A `*time.Location` as far as this program meets it. -/
inductive Location
  | UTC
  | Local
  deriving DecidableEq, Repr

/-- A `time.Time` without monotonic reading: `wall` holds the nanoseconds within the second,
`ext` (an `int64`) the seconds since January 1, year 1. -/
structure Time where
  wall : Nat
  ext : Int
  loc : Location
  deriving DecidableEq, Repr

/-- Go `t.Unix()` (`t.unixSec()`): the seconds since the Unix epoch, `t.sec() + internalToUnix`
with `int64` addition (negative before the epoch). -/
def Time.unixSec (t : Time) : Int := wrapInt64 (t.ext - unixToInternal)

/-- The nanoseconds within the second of a `Time`. -/
def Time.nsec (t : Time) : Nat := t.wall % 2 ^ 30

/-- Go `time.Unix(sec, nsec)` on `int64` arguments: `nsec` is brought into `[0, 1e9)`,
then `Time{uint64(nsec), sec + unixToInternal, Local}` with `int64` addition. -/
def timeUnix (sec nsec : Int) : Time :=
  let sn : Int × Int :=
    if nsec < 0 ∨ nsec ≥ 1000000000 then
      let n := Int.tdiv nsec 1000000000
      let sec1 := wrapInt64 (sec + n)
      let nsec1 := nsec - n * 1000000000
      if nsec1 < 0 then (wrapInt64 (sec1 - 1), nsec1 + 1000000000) else (sec1, nsec1)
    else (sec, nsec)
  { wall := sn.2.toNat, ext := wrapInt64 (sn.1 + unixToInternal), loc := Location.Local }

/-- The proleptic Gregorian date `(year, month, day)` of the day `z` days after 1970-01-01. -/
def civilFromDays (z : Int) : Int × Int × Int :=
  let z1 := z + 719468
  let era := z1 / 146097
  let doe := z1 - era * 146097
  let yoe := (doe - doe / 1460 + doe / 36524 - doe / 146096) / 365
  let doy := doe - (365 * yoe + yoe / 4 - yoe / 100)
  let mp := (5 * doy + 2) / 153
  let d := doy - (153 * mp + 2) / 5 + 1
  let m := if mp < 10 then mp + 3 else mp - 9
  (if m ≤ 2 then yoe + era * 400 + 1 else yoe + era * 400, m, d)

/-- The UTC reading `(year, month, day, hour, minute, second)` of the instant a `Time` denotes. -/
def Time.utc (t : Time) : Int × Int × Int × Int × Int × Int :=
  let sec := t.unixSec
  let date := civilFromDays (sec / 86400)
  let r := sec % 86400
  (date.1, date.2.1, date.2.2, r / 3600, r % 3600 / 60, r % 60)

/-! ## Loggers, plugin instances, events -/

/-- A go-kit logger, reduced to the key/value context bound to it with `log.With`. -/
structure Logger where
  keyvals : List String
  deriving DecidableEq, Repr

/-- The package-level `logger` set up in `init()`. -/
def globalLogger : Logger := ⟨[]⟩

/-- The logger `newLogger(level)` returns; the level only filters what is printed, the calls
made on the logger are recorded whatever the level. -/
def newLogger : Logger := ⟨[]⟩

/-- The call `log.With(l, keyvals...)`. -/
def logWith (l : Logger) (kv : List String) : Logger := ⟨l.keyvals ++ kv⟩

/-- The severities of `level.Error`, `level.Warn`, `level.Info`. -/
inductive LogLevel
  | error
  | warn
  | info
  deriving DecidableEq, Repr

/-- Modelled from the spec: the struct `loki` (declared in a file that is not part of the
sources at hand) is the Pipeline State of one instance: "a reference to the resolved
configuration, a logger bound with the instance identifier, and exclusive ownership of a remote
push client".  `out_loki.go` reads its fields `client` and `logger`. -/
structure loki (Cfg Cl : Type) where
  cfg : Cfg
  client : Cl
  logger : Logger
  deriving DecidableEq, Repr

/-- The dynamic type of the timestamp `ts interface{}` that `output.GetRecord` returns, as the
type switch of `FLBPluginFlushCtx` tells them apart. -/
inductive TsValue
  | flbTime (t : Time)
  | uint64 (t : Nat)
  | other (goType : String)
  deriving DecidableEq, Repr

/-- One msgpack object of the batch buffer, as `output.GetRecord` sees it. -/
inductive Frame (Rec : Type)
  | entry (ts : TsValue) (record : Rec)
  | notPair
  | malformed
  deriving DecidableEq, Repr

/-- The calls the entry points make to their collaborators. -/
inductive Event (Cfg Cl Rec : Type)
  | log (lvl : LogLevel) (logger : Logger) (keyvals : List String)
  | setContext (id : String)
  | newDecoder
  | getRecord (ret : Int)
  | sendRecord (plugin : loki Cfg Cl) (record : Rec) (timestamp : Time) (err : Option String)
  | stop (client : Cl)
  deriving DecidableEq, Repr

/-- The collaborators of `out_loki.go`.  `σ` is their mutable state (push clients, clock). -/
structure Env (Cfg Cl Rec σ : Type) where
  parseConfig : (String → String) → Except String Cfg
  newPlugin : Cfg → Logger → σ → Except String (loki Cfg Cl) × σ
  sendRecord : loki Cfg Cl → Rec → Time → σ → Option String × σ
  now : σ → Time
  stop : Cl → σ → σ

/-! ## The registry `plugins` -/

/-- Go `plugins[k]` with the comma-ok form: the value stored under `k`, if any. -/
def mapGet {V : Type} : List (String × V) → String → Option V
  | [], _ => none
  | (k', v) :: rest, k => if k' = k then some v else mapGet rest k

/-- Go `plugins[k] = v`: overwrite the entry of `k`, or add one. -/
def mapSet {V : Type} : List (String × V) → String → V → List (String × V)
  | [], k, v => [(k, v)]
  | (k', v') :: rest, k, v => if k' = k then (k, v) :: rest else (k', v') :: mapSet rest k v

/-- The state the entry points share: the package-level map `plugins` and the state of the
collaborators. -/
structure World (Cfg Cl σ : Type) where
  plugins : List (String × loki Cfg Cl)
  ext : σ

/-- What one call of an entry point does: its return value, the state it leaves, and the calls
it made, in order. -/
structure Outcome (Cfg Cl Rec σ : Type) where
  ret : Int
  world : World Cfg Cl σ
  events : List (Event Cfg Cl Rec)

variable {Cfg Cl Rec σ : Type}

/-! ## `FLBPluginInit` -/

/-- The `level.Info` lines `FLBPluginInit` writes before it builds the plugin (lines 58-71). -/
def startupLog (logger : Logger) : List (Event Cfg Cl Rec) :=
  let paramLogger := logWith logger ["[flb-go]", "provided parameter"]
  Event.log LogLevel.info logger ["[flb-go]", "Starting fluent-bit-go-loki", "version"] ::
    (["URL", "ID", "TenantID", "BatchWait", "BatchSize", "Labels", "LogLevel", "RemoveKeys",
      "LabelKeys", "LineFormat", "DropSingleKey", "LabelMapPath"].map
        fun k => Event.log LogLevel.info paramLogger [k])

/-- The entry point `FLBPluginInit(ctx)`; `ctx` is the host context through `output.FLBPluginConfigKey(ctx, ·)`. -/
def FLBPluginInit (env : Env Cfg Cl Rec σ) (ctx : String → String) (w : World Cfg Cl σ) :
    Outcome Cfg Cl Rec σ :=
  match env.parseConfig ctx with
  | Except.error err =>
    ⟨FLB_ERROR, w, [Event.log LogLevel.error globalLogger ["[flb-go]", "failed to launch", "error", err]]⟩
  | Except.ok conf =>
    let id := ctx "id"
    let logger := logWith newLogger ["id", id]
    match mapGet w.plugins id with
    | some _ =>
      ⟨FLB_ERROR, w, [Event.log LogLevel.info logger
        ["[flb-go]", "plugin already initialized before, please set unique plugin ID"]]⟩
    | none =>
      match env.newPlugin conf logger w.ext with
      | (Except.error err, s) =>
        ⟨FLB_ERROR, ⟨w.plugins, s⟩,
          startupLog logger ++ [Event.log LogLevel.error logger ["newPlugin", err]]⟩
      | (Except.ok plugin, s) =>
        ⟨FLB_OK, ⟨mapSet w.plugins id plugin, s⟩, startupLog logger ++ [Event.setContext id]⟩

/-! ## `FLBPluginFlushCtx` -/

/-- One call of `output.GetRecord(dec)`: `next` is the object the decoder reads (`none` when the
buffer is exhausted).  A well-formed `[timestamp, record]` pair gives `0`; an object that is
not a two-element array gives `-2`; a decoding error, the end of the buffer included, gives
`-1`.  With a non-zero code the timestamp is the `int` zero and the record is `nil`. -/
def GetRecord [Inhabited Rec] : Option (Frame Rec) → Int × TsValue × Rec
  | some (Frame.entry ts record) => (0, ts, record)
  | some Frame.notPair => (-2, TsValue.other "int", default)
  | some Frame.malformed => (-1, TsValue.other "int", default)
  | none => (-1, TsValue.other "int", default)

/-- The type switch of lines 106-115: the `time.Time` of the entry and the log call made on the
way. -/
def getTimestamp (env : Env Cfg Cl Rec σ) (plugin : loki Cfg Cl) (ts : TsValue) (s : σ) :
    Time × List (Event Cfg Cl Rec) :=
  match ts with
  | TsValue.flbTime t => (t, [])
  | TsValue.uint64 t => (timeUnix (int64OfUint64 t) 0, [])
  | TsValue.other _ =>
    (env.now s, [Event.log LogLevel.warn plugin.logger
      ["msg", "timestamp isn't known format. Use current time."]])

/-- The `for` loop of lines 99-122 and the `return` after it, run over the objects the decoder
still has to read. -/
def flushLoop [Inhabited Rec] (env : Env Cfg Cl Rec σ) (plugin : loki Cfg Cl) :
    List (Frame Rec) → σ → Int × σ × List (Event Cfg Cl Rec)
  | [], s => (FLB_OK, s, [Event.getRecord (GetRecord (none : Option (Frame Rec))).1])
  | f :: rest, s =>
    let r := GetRecord (some f)
    if r.1 ≠ 0 then (FLB_OK, s, [Event.getRecord r.1])
    else
      let tw := getTimestamp env plugin r.2.1 s
      match env.sendRecord plugin r.2.2 tw.1 s with
      | (some err, s1) =>
        (FLB_ERROR, s1,
          Event.getRecord r.1 :: (tw.2 ++
            [Event.sendRecord plugin r.2.2 tw.1 (some err),
             Event.log LogLevel.error plugin.logger ["msg", "error sending record to Loki", "error", err]]))
      | (none, s1) =>
        let k := flushLoop env plugin rest s1
        (k.1, k.2.1,
          Event.getRecord r.1 :: (tw.2 ++ (Event.sendRecord plugin r.2.2 tw.1 none :: k.2.2)))

/-- The entry point `FLBPluginFlushCtx(ctx, data, length, _)`; `id` is `output.FLBPluginGetContext(ctx).(string)`
and `data` the objects held by the buffer `data[0:length]`. -/
def FLBPluginFlushCtx [Inhabited Rec] (env : Env Cfg Cl Rec σ) (id : String)
    (data : List (Frame Rec)) (w : World Cfg Cl σ) : Outcome Cfg Cl Rec σ :=
  match mapGet w.plugins id with
  | none =>
    ⟨FLB_ERROR, w, [Event.log LogLevel.error globalLogger ["[flb-go]", "plugin not initialized", "id", id]]⟩
  | some plugin =>
    let k := flushLoop env plugin data w.ext
    ⟨k.1, ⟨w.plugins, k.2.1⟩, Event.newDecoder :: k.2.2⟩

/-! ## `FLBPluginExit` -/

/-- The loop `for _, plugin := range plugins { plugin.client.Stop() }`, run over the entries in
the order the iteration visits them. -/
def stopAll (env : Env Cfg Cl Rec σ) : List (String × loki Cfg Cl) → σ → σ × List (Event Cfg Cl Rec)
  | [], s => (s, [])
  | (_, plugin) :: rest, s =>
    let k := stopAll env rest (env.stop plugin.client s)
    (k.1, Event.stop plugin.client :: k.2)

/-- The entry point `FLBPluginExit()`.  Go leaves the order of a `range` over a map
unspecified; the order of the list `plugins` stands for the order in which the run visits the
entries, so that every order is the order of some state. -/
def FLBPluginExit (env : Env Cfg Cl Rec σ) (w : World Cfg Cl σ) : Outcome Cfg Cl Rec σ :=
  let k := stopAll env w.plugins w.ext
  ⟨FLB_OK, ⟨w.plugins, k.1⟩, k.2⟩

/-! ## Sequences of host calls -/

/-- A call of the host on the plugin, or a change of the collaborators' state that happens
between two calls (clock, network, push client internals). -/
inductive HostCall (Rec σ : Type)
  | init (ctx : String → String)
  | flush (id : String) (data : List (Frame Rec))
  | exit
  | external (change : σ → σ)

/-- The state one host call leaves. -/
def runCall [Inhabited Rec] (env : Env Cfg Cl Rec σ) (c : HostCall Rec σ) (w : World Cfg Cl σ) :
    World Cfg Cl σ :=
  match c with
  | HostCall.init ctx => (FLBPluginInit env ctx w).world
  | HostCall.flush id data => (FLBPluginFlushCtx env id data w).world
  | HostCall.exit => (FLBPluginExit env w).world
  | HostCall.external change => ⟨w.plugins, change w.ext⟩

/-- The state a sequence of host calls leaves. -/
def runCalls [Inhabited Rec] (env : Env Cfg Cl Rec σ) :
    List (HostCall Rec σ) → World Cfg Cl σ → World Cfg Cl σ
  | [], w => w
  | c :: rest, w => runCalls env rest (runCall env c w)

/-! ## Observations on the recorded calls -/

/-- The arguments of a `sendRecord` call. -/
def sendArgs : Event Cfg Cl Rec → Option (Rec × Time)
  | Event.sendRecord _ record timestamp _ => some (record, timestamp)
  | _ => none

/-- The `(record, timestamp)` pairs passed to `sendRecord`, in call order. -/
def dispatched (evs : List (Event Cfg Cl Rec)) : List (Rec × Time) := evs.filterMap sendArgs

/-- A `sendRecord` call that returned a non-nil error. -/
def sendFailed : Event Cfg Cl Rec → Bool
  | Event.sendRecord _ _ _ (some _) => true
  | _ => false

/-- A `sendRecord` call. -/
def isSend : Event Cfg Cl Rec → Bool
  | Event.sendRecord _ _ _ _ => true
  | _ => false

/-- An `output.GetRecord` call. -/
def isGetRecord : Event Cfg Cl Rec → Bool
  | Event.getRecord _ => true
  | _ => false

/-- An `output.GetRecord` call that returned `0`, that is, yielded an entry. -/
def isYield : Event Cfg Cl Rec → Bool
  | Event.getRecord ret => decide (ret = 0)
  | _ => false

/-- An `output.NewDecoder` call. -/
def isNewDecoder : Event Cfg Cl Rec → Bool
  | Event.newDecoder => true
  | _ => false

/-- A `level.Warn` log call. -/
def isWarn : Event Cfg Cl Rec → Bool
  | Event.log LogLevel.warn _ _ => true
  | _ => false

/-- The client of a `Stop` call. -/
def stopArg : Event Cfg Cl Rec → Option Cl
  | Event.stop c => some c
  | _ => none

/-- The clients `Stop` was called on, in call order. -/
def stopped (evs : List (Event Cfg Cl Rec)) : List Cl := evs.filterMap stopArg

/-- What the push client does and answers when `plugin.sendRecord` is applied to the given
`(record, timestamp)` pairs one after the other, from state `s`, up to the first application
that returns an error: the state it is left in and the calls with their results. -/
def sendRun (env : Env Cfg Cl Rec σ) (plugin : loki Cfg Cl) :
    List (Rec × Time) → σ → σ × List (Event Cfg Cl Rec)
  | [], s => (s, [])
  | (record, timestamp) :: rest, s =>
    match env.sendRecord plugin record timestamp s with
    | (some err, s1) => (s1, [Event.sendRecord plugin record timestamp (some err)])
    | (none, s1) =>
      let k := sendRun env plugin rest s1
      (k.1, Event.sendRecord plugin record timestamp none :: k.2)

/-- The state of the collaborators after `Stop` is applied to the given clients one after the
other, from state `s`. -/
def stopRun (env : Env Cfg Cl Rec σ) : List Cl → σ → σ
  | [], s => s
  | c :: rest, s => stopRun env rest (env.stop c s)

/-- The timestamp takes the fallback branch (`default`) of the type switch. -/
def isFallback : TsValue → Bool
  | TsValue.other _ => true
  | _ => false

/-- The entries successive `output.GetRecord` calls yield on a buffer, up to the first non-zero
return code (a decode fault or the end of the buffer). -/
def decodedEntries [Inhabited Rec] : List (Frame Rec) → List (TsValue × Rec)
  | [] => []
  | f :: rest =>
    if (GetRecord (some f)).1 = 0 then
      ((GetRecord (some f)).2.1, (GetRecord (some f)).2.2) :: decodedEntries rest
    else []

/-- The well-formed entries a buffer holds, faults skipped. -/
def batchEntries : List (Frame Rec) → List (TsValue × Rec)
  | [] => []
  | Frame.entry ts record :: rest => (ts, record) :: batchEntries rest
  | _ :: rest => batchEntries rest

/-! ## A concrete environment for examples -/

/-- Records of the examples: field name and value. -/
abbrev DemoRecord := List (String × String)

/-- The state of the collaborators of the examples: the number of `sendRecord` calls made so
far, what the push clients were handed, and the clients that were stopped. -/
structure DemoState where
  sends : Nat
  received : List (String × DemoRecord × Time)
  stops : List String
  deriving DecidableEq, Repr

/-- A collaborator set for examples.  The configuration is the URL, the client is named after
it, the state records what the push clients are handed, and the `sendRecord` call number
`failAt` (if any) is rejected by the push client. -/
def demoEnv (failAt : Option Nat) : Env String String DemoRecord DemoState where
  parseConfig := fun ctx =>
    if ctx "url" = "" then Except.error "url is empty" else Except.ok (ctx "url")
  newPlugin := fun conf logger s =>
    if conf = "bad" then (Except.error "invalid client config", s)
    else (Except.ok ⟨conf, conf, logger⟩, s)
  sendRecord := fun plugin record timestamp s =>
    (if some s.sends = failAt then some "push failed" else none,
      ⟨s.sends + 1, s.received ++ [(plugin.client, record, timestamp)], s.stops⟩)
  now := fun s => timeUnix (s.sends : Int) 0
  stop := fun c s => ⟨s.sends, s.received, s.stops ++ [c]⟩

/-- The state of the collaborators before any call. -/
def demoState : DemoState := ⟨0, [], []⟩

/-- A host context with the given `id` and `url` configuration keys. -/
def demoCtx (id url : String) : String → String :=
  fun k => if k = "id" then id else if k = "url" then url else ""

/-- A plugin instance of the examples. -/
def demoPlugin (name : String) : loki String String := ⟨name, name, logWith newLogger ["id", name]⟩

/-- A state with one registered instance, `"a"`. -/
def demoWorld : World String String DemoState := ⟨[("a", demoPlugin "a")], demoState⟩

/-- The empty registry. -/
def emptyWorld : World String String DemoState := ⟨[], demoState⟩

/-- A state with two registered instances, `"a"` and `"b"`. -/
def demoWorld2 : World String String DemoState :=
  ⟨[("b", demoPlugin "b"), ("a", demoPlugin "a")], demoState⟩

/-- A buffer of one entry: `{ts: 1700000000, record: {msg: "hi"}}`. -/
def demoBatchHi : List (Frame DemoRecord) :=
  [Frame.entry (TsValue.uint64 1700000000) [("msg", "hi")]]

/-- A buffer of three well-formed entries. -/
def demoBatch3 : List (Frame DemoRecord) :=
  [Frame.entry (TsValue.uint64 1) [("msg", "one")],
   Frame.entry (TsValue.other "string") [("msg", "two")],
   Frame.entry (TsValue.uint64 3) [("msg", "three")]]

/-- A buffer with a malformed object between two well-formed entries. -/
def demoBatchFault : List (Frame DemoRecord) :=
  [Frame.entry (TsValue.uint64 1) [("msg", "one")], Frame.malformed,
   Frame.entry (TsValue.uint64 2) [("msg", "two")]]

/-- A buffer of one entry whose `uint64` timestamp is `2^63`. -/
def demoBatchBig : List (Frame DemoRecord) :=
  [Frame.entry (TsValue.uint64 9223372036854775808) [("msg", "hi")]]

/-- A structured time value: 2023-11-14T22:13:20.000000123Z. -/
def demoTime : Time := ⟨123, 63835596800, Location.UTC⟩

/-- A buffer of one entry with an `output.FLBTime` timestamp. -/
def demoBatchTime : List (Frame DemoRecord) :=
  [Frame.entry (TsValue.flbTime demoTime) [("msg", "hi")]]

/-! ## The registry -/

theorem mapGet_mapSet_self {V : Type} (m : List (String × V)) (k : String) (v : V) :
    mapGet (mapSet m k v) k = some v := by
  induction m with
  | nil => simp [mapSet, mapGet]
  | cons e rest ih =>
    obtain ⟨k', v'⟩ := e
    by_cases h : k' = k
    · simp [mapSet, mapGet, h]
    · simp [mapSet, mapGet, h, ih]

theorem mapGet_mapSet_of_ne {V : Type} (m : List (String × V)) (k k2 : String) (v : V)
    (h : k ≠ k2) : mapGet (mapSet m k v) k2 = mapGet m k2 := by
  induction m with
  | nil => simp [mapSet, mapGet, h]
  | cons e rest ih =>
    obtain ⟨k1, v1⟩ := e
    by_cases h1 : k1 = k
    · subst h1
      simp [mapSet, mapGet, h]
    · by_cases h2 : k1 = k2
      · subst h2
        simp [mapSet, mapGet, h1]
      · simp [mapSet, mapGet, h1, h2, ih]

theorem mapGet_mem {V : Type} (m : List (String × V)) (k : String) (v : V)
    (h : mapGet m k = some v) : (k, v) ∈ m := by
  induction m with
  | nil => simp [mapGet] at h
  | cons e rest ih =>
    obtain ⟨k1, v1⟩ := e
    by_cases h1 : k1 = k
    · simp only [mapGet, h1, if_true, Option.some.injEq] at h
      simp [h1, h]
    · simp only [mapGet, h1, if_false] at h
      simp [ih h]

theorem mem_mapGet_of_nodup {V : Type} (m : List (String × V)) (hnd : (m.map Prod.fst).Nodup)
    (e : String × V) (he : e ∈ m) : mapGet m e.1 = some e.2 := by
  induction m with
  | nil => simp at he
  | cons x rest ih =>
    obtain ⟨k1, v1⟩ := x
    simp only [List.map_cons, List.nodup_cons] at hnd
    simp only [List.mem_cons] at he
    rcases he with rfl | he
    · simp [mapGet]
    · have hne : k1 ≠ e.1 := by
        intro hk
        exact hnd.1 (by rw [hk]; exact List.mem_map_of_mem Prod.fst he)
      simp only [mapGet, hne, if_false]
      exact ih hnd.2 he

/-! ## `FLBPluginInit` -/

/-- An identifier that has an entry makes `FLBPluginInit` fail and leaves the state as it is. -/
theorem init_of_registered (env : Env Cfg Cl Rec σ) (ctx : String → String) (w : World Cfg Cl σ)
    (p : loki Cfg Cl) (h : mapGet w.plugins (ctx "id") = some p) :
    (FLBPluginInit env ctx w).ret = FLB_ERROR ∧ (FLBPluginInit env ctx w).world = w ∧
      ∀ e ∈ (FLBPluginInit env ctx w).events, ∃ lvl lg kv, e = Event.log lvl lg kv := by
  unfold FLBPluginInit
  cases env.parseConfig ctx with
  | error err => simp
  | ok conf => simp [h]

/-- A successful `FLBPluginInit` found the identifier free and stored the instance `newPlugin`
returned under it. -/
theorem init_ok_inv (env : Env Cfg Cl Rec σ) (ctx : String → String) (w : World Cfg Cl σ)
    (h : (FLBPluginInit env ctx w).ret = FLB_OK) :
    mapGet w.plugins (ctx "id") = none ∧
      ∃ p, (FLBPluginInit env ctx w).world.plugins = mapSet w.plugins (ctx "id") p ∧
        mapGet (FLBPluginInit env ctx w).world.plugins (ctx "id") = some p := by
  unfold FLBPluginInit at h ⊢
  cases hc : env.parseConfig ctx with
  | error err => simp [hc, FLB_ERROR, FLB_OK] at h
  | ok conf =>
    cases hg : mapGet w.plugins (ctx "id") with
    | some q => simp [hc, hg, FLB_ERROR, FLB_OK] at h
    | none =>
      rcases hn : env.newPlugin conf (logWith newLogger ["id", ctx "id"]) w.ext with ⟨r, s⟩
      cases r with
      | error err => simp [hc, hg, hn, FLB_ERROR, FLB_OK] at h
      | ok p =>
        simp only [hc, hg, hn]
        exact ⟨trivial, p, rfl, mapGet_mapSet_self _ _ _⟩

/-- No call of `FLBPluginInit` removes or replaces an entry of the registry. -/
theorem init_keeps_entries (env : Env Cfg Cl Rec σ) (ctx : String → String) (w : World Cfg Cl σ)
    (k : String) (q : loki Cfg Cl) (h : mapGet w.plugins k = some q) :
    mapGet (FLBPluginInit env ctx w).world.plugins k = some q := by
  unfold FLBPluginInit
  cases hc : env.parseConfig ctx with
  | error err => exact h
  | ok conf =>
    cases hg : mapGet w.plugins (ctx "id") with
    | some q1 =>
      simp only [hg]
      exact h
    | none =>
      rcases hn : env.newPlugin conf (logWith newLogger ["id", ctx "id"]) w.ext with ⟨r, s⟩
      have hne : ctx "id" ≠ k := by
        intro hk
        rw [hk, h] at hg
        simp at hg
      cases r with
      | error err =>
        simp only [hg, hn]
        exact h
      | ok plugin =>
        simp only [hg, hn]
        rw [mapGet_mapSet_of_ne _ _ _ _ hne]
        exact h

/-- No host call removes or replaces an entry of the registry. -/
theorem runCall_keeps_entries [Inhabited Rec] (env : Env Cfg Cl Rec σ) (c : HostCall Rec σ)
    (w : World Cfg Cl σ) (k : String) (q : loki Cfg Cl) (h : mapGet w.plugins k = some q) :
    mapGet (runCall env c w).plugins k = some q := by
  cases c with
  | init ctx => exact init_keeps_entries env ctx w k q h
  | flush id data =>
    simp only [runCall, FLBPluginFlushCtx]
    cases mapGet w.plugins id <;> exact h
  | exit => exact h
  | external change => exact h

/-- No sequence of host calls removes or replaces an entry of the registry. -/
theorem runCalls_keeps_entries [Inhabited Rec] (env : Env Cfg Cl Rec σ)
    (calls : List (HostCall Rec σ)) (w : World Cfg Cl σ) (k : String) (q : loki Cfg Cl)
    (h : mapGet w.plugins k = some q) : mapGet (runCalls env calls w).plugins k = some q := by
  induction calls generalizing w with
  | nil => exact h
  | cons c rest ih => exact ih (runCall env c w) (runCall_keeps_entries env c w k q h)

/-- C1: when a first `FLBPluginInit` call has registered its instance, every later call with
the same identifier, whatever host calls (other `FLBPluginInit` calls included) and state
changes lie between the two, returns `FLB_ERROR` and leaves the state as it found it: the
registry after it is the registry before it, no entry is added, and the identifier is still
mapped to the instance the first call stored.  The second call makes no call but log calls (no
`newPlugin`, no `FLBPluginSetContext`). -/
theorem init_duplicate_rejected [Inhabited Rec] (env : Env Cfg Cl Rec σ)
    (ctx1 ctx2 : String → String) (w : World Cfg Cl σ) (between : List (HostCall Rec σ))
    (hfirst : (FLBPluginInit env ctx1 w).ret = FLB_OK) (hid : ctx2 "id" = ctx1 "id") :
    (FLBPluginInit env ctx2 (runCalls env between (FLBPluginInit env ctx1 w).world)).ret
        = FLB_ERROR ∧
      (FLBPluginInit env ctx2 (runCalls env between (FLBPluginInit env ctx1 w).world)).world
        = runCalls env between (FLBPluginInit env ctx1 w).world ∧
      (∃ p, mapGet (FLBPluginInit env ctx1 w).world.plugins (ctx1 "id") = some p ∧
        mapGet (runCalls env between (FLBPluginInit env ctx1 w).world).plugins (ctx1 "id")
          = some p ∧
        mapGet (FLBPluginInit env ctx2
          (runCalls env between (FLBPluginInit env ctx1 w).world)).world.plugins (ctx1 "id")
          = some p) ∧
      ∀ e ∈ (FLBPluginInit env ctx2
          (runCalls env between (FLBPluginInit env ctx1 w).world)).events,
        ∃ lvl lg kv, e = Event.log lvl lg kv := by
  obtain ⟨_, p, _, hp⟩ := init_ok_inv env ctx1 w hfirst
  have hp1 := runCalls_keeps_entries env between _ _ p hp
  have hp2 : mapGet (runCalls env between (FLBPluginInit env ctx1 w).world).plugins (ctx2 "id")
      = some p := by rw [hid]; exact hp1
  obtain ⟨hret, hw, hev⟩ := init_of_registered env ctx2 _ p hp2
  refine ⟨hret, hw, ⟨p, hp, hp1, ?_⟩, hev⟩
  rw [hw]
  exact hp1

/-- C2: when `parseConfig` fails, or `newPlugin` fails on the configuration `parseConfig`
returned, `FLBPluginInit` returns `FLB_ERROR` and the registry after the call is the registry
before it. -/
theorem init_failure_keeps_registry (env : Env Cfg Cl Rec σ) (ctx : String → String)
    (w : World Cfg Cl σ)
    (hfail : (∃ err, env.parseConfig ctx = Except.error err) ∨
      ∃ conf err s, env.parseConfig ctx = Except.ok conf ∧
        env.newPlugin conf (logWith newLogger ["id", ctx "id"]) w.ext = (Except.error err, s)) :
    (FLBPluginInit env ctx w).ret = FLB_ERROR ∧
      (FLBPluginInit env ctx w).world.plugins = w.plugins := by
  unfold FLBPluginInit
  rcases hfail with ⟨err, hc⟩ | ⟨conf, err, s, hc, hn⟩
  · simp [hc]
  · cases hg : mapGet w.plugins (ctx "id") with
    | some q => simp [hc, hg]
    | none => simp [hc, hg, hn]

/-! ## `FLBPluginFlushCtx` on an unknown identifier -/

/-- C3: for an identifier without registry entry and any buffer, `FLBPluginFlushCtx` returns
`FLB_ERROR` after one error log call: no `NewDecoder`, no `GetRecord`, no `sendRecord` call is
made, and the state is left as it was. -/
theorem flush_unregistered [Inhabited Rec] (env : Env Cfg Cl Rec σ) (id : String)
    (data : List (Frame Rec)) (w : World Cfg Cl σ) (h : mapGet w.plugins id = none) :
    (FLBPluginFlushCtx env id data w).ret = FLB_ERROR ∧
      (FLBPluginFlushCtx env id data w).events =
        [Event.log LogLevel.error globalLogger ["[flb-go]", "plugin not initialized", "id", id]] ∧
      (∀ e ∈ (FLBPluginFlushCtx env id data w).events,
        isNewDecoder e = false ∧ isGetRecord e = false ∧ isSend e = false) ∧
      dispatched (FLBPluginFlushCtx env id data w).events = [] ∧
      (FLBPluginFlushCtx env id data w).world = w := by
  simp [FLBPluginFlushCtx, h, isNewDecoder, isGetRecord, isSend, dispatched, sendArgs]

/-! ## `FLBPluginExit` -/

theorem stopAll_spec (env : Env Cfg Cl Rec σ) (l : List (String × loki Cfg Cl)) (s : σ) :
    (stopAll env l s).2 = l.map (fun e => Event.stop e.2.client) ∧
      (stopAll env l s).1 = stopRun env (l.map (fun e => e.2.client)) s := by
  induction l generalizing s with
  | nil => exact ⟨rfl, rfl⟩
  | cons e rest ih =>
    obtain ⟨k, p⟩ := e
    obtain ⟨h1, h2⟩ := ih (env.stop p.client s)
    exact ⟨by simp [stopAll, h1], by simp [stopAll, stopRun, h2]⟩

theorem stopped_map_stop (l : List (String × loki Cfg Cl)) :
    stopped (l.map (fun e => (Event.stop e.2.client : Event Cfg Cl Rec))) =
      l.map (fun e => e.2.client) := by
  induction l with
  | nil => rfl
  | cons e rest ih => simpa [stopped, stopArg] using ih

/-- C10: `FLBPluginExit` returns `FLB_OK`, leaves the registry as it is, and makes exactly one
call per registry entry, in the order the entries are visited, a `Stop` on the client of that
entry, and no other call; the collaborators end in the state these `Stop` calls leave them in.
Every registered instance has its client stopped, and in a registry of distinct identifiers
`Stop` is called on the client of a registered instance only.  On an empty registry no call is
made and the state is unchanged. -/
theorem exit_stops_each_once (env : Env Cfg Cl Rec σ) (w : World Cfg Cl σ) :
    (FLBPluginExit env w).ret = FLB_OK ∧
      (FLBPluginExit env w).world.plugins = w.plugins ∧
      (FLBPluginExit env w).events = w.plugins.map (fun e => Event.stop e.2.client) ∧
      stopped (FLBPluginExit env w).events = w.plugins.map (fun e => e.2.client) ∧
      (FLBPluginExit env w).world.ext =
        stopRun env (w.plugins.map (fun e => e.2.client)) w.ext ∧
      (∀ id plugin, mapGet w.plugins id = some plugin →
        plugin.client ∈ stopped (FLBPluginExit env w).events) ∧
      ((w.plugins.map Prod.fst).Nodup → ∀ c ∈ stopped (FLBPluginExit env w).events,
        ∃ id plugin, mapGet w.plugins id = some plugin ∧ plugin.client = c) ∧
      (w.plugins = [] →
        (FLBPluginExit env w).events = [] ∧ (FLBPluginExit env w).world.ext = w.ext) := by
  obtain ⟨h1, h2⟩ := @stopAll_spec Cfg Cl Rec σ env w.plugins w.ext
  have hev : (FLBPluginExit env w).events = w.plugins.map (fun e => Event.stop e.2.client) := h1
  have hst : stopped (FLBPluginExit env w).events = w.plugins.map (fun e => e.2.client) := by
    rw [hev]
    exact stopped_map_stop w.plugins
  refine ⟨rfl, rfl, hev, hst, h2, ?_, ?_, ?_⟩
  · intro id plugin hget
    rw [hst]
    exact List.mem_map_of_mem (fun e => e.2.client) (mapGet_mem _ _ _ hget)
  · intro hnd c hc
    rw [hst] at hc
    obtain ⟨e, he, hce⟩ := List.mem_map.1 hc
    exact ⟨e.1, e.2, mem_mapGet_of_nodup _ hnd e he, hce⟩
  · intro hnil
    refine ⟨by rw [hev, hnil]; rfl, ?_⟩
    show (stopAll env w.plugins w.ext).1 = w.ext
    rw [hnil]
    rfl

/-! ## The decode and dispatch loop -/

/-- The type switch makes no call but the warning of its fallback branch. -/
theorem getTimestamp_events (env : Env Cfg Cl Rec σ) (p : loki Cfg Cl) (ts : TsValue) (s : σ) :
    (getTimestamp env p ts s).2 =
      if isFallback ts then
        [Event.log LogLevel.warn p.logger ["msg", "timestamp isn't known format. Use current time."]]
      else [] := by
  cases ts <;> rfl

theorem dispatched_getTimestamp (env : Env Cfg Cl Rec σ) (p : loki Cfg Cl) (ts : TsValue)
    (s : σ) :
    dispatched (getTimestamp env p ts s).2 = [] := by
  cases ts <;> rfl

section Loop

variable [Inhabited Rec] (env : Env Cfg Cl Rec σ) (p : loki Cfg Cl)

theorem flushLoop_nil (s : σ) :
    flushLoop env p ([] : List (Frame Rec)) s = (FLB_OK, s, [Event.getRecord (-1)]) := rfl

theorem flushLoop_fault (f : Frame Rec) (rest : List (Frame Rec)) (s : σ)
    (h : (GetRecord (some f)).1 ≠ 0) :
    flushLoop env p (f :: rest) s = (FLB_OK, s, [Event.getRecord (GetRecord (some f)).1]) := by
  simp [flushLoop, h]

theorem flushLoop_entry_fail (ts : TsValue) (record : Rec) (rest : List (Frame Rec)) (s s1 : σ)
    (err : String)
    (h : env.sendRecord p record (getTimestamp env p ts s).1 s = (some err, s1)) :
    flushLoop env p (Frame.entry ts record :: rest) s =
      (FLB_ERROR, s1,
        Event.getRecord 0 :: ((getTimestamp env p ts s).2 ++
          [Event.sendRecord p record (getTimestamp env p ts s).1 (some err),
           Event.log LogLevel.error p.logger ["msg", "error sending record to Loki", "error", err]])) := by
  simp [flushLoop, GetRecord, h]

theorem flushLoop_entry_ok (ts : TsValue) (record : Rec) (rest : List (Frame Rec)) (s s1 : σ)
    (h : env.sendRecord p record (getTimestamp env p ts s).1 s = (none, s1)) :
    flushLoop env p (Frame.entry ts record :: rest) s =
      ((flushLoop env p rest s1).1, (flushLoop env p rest s1).2.1,
        Event.getRecord 0 :: ((getTimestamp env p ts s).2 ++
          (Event.sendRecord p record (getTimestamp env p ts s).1 none ::
            (flushLoop env p rest s1).2.2))) := by
  simp [flushLoop, GetRecord, h]

/-- Case analysis along the runs of the loop: the buffer is exhausted, the next object is a
fault, `sendRecord` fails on the next entry, or it succeeds and the loop goes on. -/
theorem flushLoop_induct
    (motive : List (Frame Rec) → σ → Int × σ × List (Event Cfg Cl Rec) → Prop)
    (hnil : ∀ s, motive [] s (FLB_OK, s, [Event.getRecord (-1)]))
    (hfault : ∀ f rest s, (GetRecord (some f)).1 ≠ 0 →
      motive (f :: rest) s (FLB_OK, s, [Event.getRecord (GetRecord (some f)).1]))
    (hfail : ∀ ts record rest s s1 err,
      env.sendRecord p record (getTimestamp env p ts s).1 s = (some err, s1) →
      motive (Frame.entry ts record :: rest) s
        (FLB_ERROR, s1,
          Event.getRecord 0 :: ((getTimestamp env p ts s).2 ++
            [Event.sendRecord p record (getTimestamp env p ts s).1 (some err),
             Event.log LogLevel.error p.logger
               ["msg", "error sending record to Loki", "error", err]])))
    (hok : ∀ ts record rest s s1,
      env.sendRecord p record (getTimestamp env p ts s).1 s = (none, s1) →
      motive rest s1 (flushLoop env p rest s1) →
      motive (Frame.entry ts record :: rest) s
        ((flushLoop env p rest s1).1, (flushLoop env p rest s1).2.1,
          Event.getRecord 0 :: ((getTimestamp env p ts s).2 ++
            (Event.sendRecord p record (getTimestamp env p ts s).1 none ::
              (flushLoop env p rest s1).2.2))))
    (data : List (Frame Rec)) (s : σ) : motive data s (flushLoop env p data s) := by
  induction data generalizing s with
  | nil => exact hnil s
  | cons f rest ih =>
    cases f with
    | notPair =>
      rw [flushLoop_fault env p _ rest s (by simp [GetRecord])]
      exact hfault _ rest s (by simp [GetRecord])
    | malformed =>
      rw [flushLoop_fault env p _ rest s (by simp [GetRecord])]
      exact hfault _ rest s (by simp [GetRecord])
    | entry ts record =>
      rcases hs : env.sendRecord p record (getTimestamp env p ts s).1 s with ⟨r, s1⟩
      cases r with
      | some err =>
        rw [flushLoop_entry_fail env p ts record rest s s1 err hs]
        exact hfail ts record rest s s1 err hs
      | none =>
        rw [flushLoop_entry_ok env p ts record rest s s1 hs]
        exact hok ts record rest s s1 hs (ih s1)

theorem decodedEntries_fault (f : Frame Rec) (rest : List (Frame Rec))
    (h : (GetRecord (some f)).1 ≠ 0) : decodedEntries (f :: rest) = [] := by
  simp [decodedEntries, h]

theorem decodedEntries_entry (ts : TsValue) (record : Rec) (rest : List (Frame Rec)) :
    decodedEntries (Frame.entry ts record :: rest) = (ts, record) :: decodedEntries rest := by
  simp [decodedEntries, GetRecord]

/-- The loop returns `FLB_OK` or `FLB_ERROR`. -/
theorem flushLoop_ret (data : List (Frame Rec)) (s : σ) :
    (flushLoop env p data s).1 = FLB_OK ∨ (flushLoop env p data s).1 = FLB_ERROR := by
  refine flushLoop_induct env p (fun _ _ r => r.1 = FLB_OK ∨ r.1 = FLB_ERROR) ?_ ?_ ?_ ?_ data s
  · intro s; exact Or.inl rfl
  · intro f rest s _; exact Or.inl rfl
  · intro ts record rest s s1 err _; exact Or.inr rfl
  · intro ts record rest s s1 _ ih; exact ih

/-- The `i`-th `sendRecord` call of the loop carries the record of the `i`-th entry the decoder
yields, with the timestamp the type switch gives for that entry. -/
theorem flushLoop_dispatched_get (data : List (Frame Rec)) (s : σ) :
    ∀ (i : Nat) (d : Rec × Time), (dispatched (flushLoop env p data s).2.2)[i]? = some d →
      ∃ ts s1, (decodedEntries data)[i]? = some (ts, d.1) ∧ d.2 = (getTimestamp env p ts s1).1 := by
  refine flushLoop_induct env p
    (fun data _ r => ∀ (i : Nat) (d : Rec × Time), (dispatched r.2.2)[i]? = some d →
      ∃ ts s1, (decodedEntries data)[i]? = some (ts, d.1) ∧ d.2 = (getTimestamp env p ts s1).1)
    ?_ ?_ ?_ ?_ data s
  · intro s i d h
    simp [dispatched, sendArgs] at h
  · intro f rest s _ i d h
    simp [dispatched, sendArgs] at h
  · intro ts record rest s s1 err _ i d h
    have hd : dispatched (Event.getRecord 0 :: ((getTimestamp env p ts s).2 ++
          [Event.sendRecord p record (getTimestamp env p ts s).1 (some err),
           Event.log LogLevel.error p.logger ["msg", "error sending record to Loki", "error", err]]))
        = [(record, (getTimestamp env p ts s).1)] := by
      have := dispatched_getTimestamp env p ts s
      simp only [dispatched] at this
      simp [dispatched, sendArgs, List.filterMap_append, this]
    simp only [hd] at h
    cases i with
    | zero =>
      simp at h
      subst h
      exact ⟨ts, s, by simp [decodedEntries_entry], rfl⟩
    | succ j => simp at h
  · intro ts record rest s s1 _ ih i d h
    have hd : dispatched (Event.getRecord 0 :: ((getTimestamp env p ts s).2 ++
          (Event.sendRecord p record (getTimestamp env p ts s).1 none ::
            (flushLoop env p rest s1).2.2)))
        = (record, (getTimestamp env p ts s).1) :: dispatched (flushLoop env p rest s1).2.2 := by
      have := dispatched_getTimestamp env p ts s
      simp only [dispatched] at this
      simp [dispatched, sendArgs, List.filterMap_append, this]
    simp only [hd] at h
    cases i with
    | zero =>
      simp at h
      subst h
      exact ⟨ts, s, by simp [decodedEntries_entry], rfl⟩
    | succ j =>
      simp only [List.getElem?_cons_succ] at h
      obtain ⟨ts1, s2, h1, h2⟩ := ih j d h
      exact ⟨ts1, s2, by simpa [decodedEntries_entry] using h1, h2⟩

/-- What the `sendRecord` arguments of an iteration whose send fails are. -/
theorem dispatched_fail_block (ts : TsValue) (record : Rec) (s : σ) (err : String) :
    dispatched (Event.getRecord 0 :: ((getTimestamp env p ts s).2 ++
      [Event.sendRecord p record (getTimestamp env p ts s).1 (some err),
       Event.log LogLevel.error p.logger ["msg", "error sending record to Loki", "error", err]]))
      = [(record, (getTimestamp env p ts s).1)] := by
  have h := dispatched_getTimestamp env p ts s
  simp only [dispatched] at h
  simp [dispatched, sendArgs, List.filterMap_append, h]

/-- What the `sendRecord` arguments of an iteration whose send succeeds, and of the iterations
after it, are. -/
theorem dispatched_ok_block (ts : TsValue) (record : Rec) (s : σ)
    (tail : List (Event Cfg Cl Rec)) :
    dispatched (Event.getRecord 0 :: ((getTimestamp env p ts s).2 ++
      (Event.sendRecord p record (getTimestamp env p ts s).1 none :: tail)))
      = (record, (getTimestamp env p ts s).1) :: dispatched tail := by
  have h := dispatched_getTimestamp env p ts s
  simp only [dispatched] at h
  simp [dispatched, sendArgs, List.filterMap_append, h]

/-- The records sent are an initial part of the records decoded. -/
theorem flushLoop_sent_initial (data : List (Frame Rec)) (s : σ) :
    (dispatched (flushLoop env p data s).2.2).map Prod.fst <+:
      (decodedEntries data).map Prod.snd := by
  refine flushLoop_induct env p
    (fun data _ r => (dispatched r.2.2).map Prod.fst <+: (decodedEntries data).map Prod.snd)
    ?_ ?_ ?_ ?_ data s
  · intro s; simp [dispatched, sendArgs]
  · intro f rest s _; simp [dispatched, sendArgs]
  · intro ts record rest s s1 err _
    simp only [dispatched_fail_block, decodedEntries_entry, List.map_cons, List.map_nil]
    exact (List.prefix_cons_inj record).2 ( List.nil_prefix)
  · intro ts record rest s s1 _ ih
    simp only [dispatched_ok_block, decodedEntries_entry, List.map_cons]
    exact (List.prefix_cons_inj record).2 ih

/-- A run that returns `FLB_OK` sent every decoded entry and no send failed. -/
theorem flushLoop_ok (data : List (Frame Rec)) (s : σ)
    (h : (flushLoop env p data s).1 = FLB_OK) :
    (dispatched (flushLoop env p data s).2.2).map Prod.fst = (decodedEntries data).map Prod.snd ∧
      ∀ e ∈ (flushLoop env p data s).2.2, sendFailed e = false := by
  revert h
  refine flushLoop_induct env p
    (fun data _ r => r.1 = FLB_OK →
      (dispatched r.2.2).map Prod.fst = (decodedEntries data).map Prod.snd ∧
        ∀ e ∈ r.2.2, sendFailed e = false)
    ?_ ?_ ?_ ?_ data s
  · intro s _; simp [dispatched, sendArgs, decodedEntries, sendFailed]
  · intro f rest s hf _
    simp [dispatched, sendArgs, decodedEntries_fault f rest hf, sendFailed]
  · intro ts record rest s s1 err _ h
    simp [FLB_OK, FLB_ERROR] at h
  · intro ts record rest s s1 _ ih h
    obtain ⟨h1, h2⟩ := ih h
    refine ⟨?_, ?_⟩
    · simp only [dispatched_ok_block, decodedEntries_entry, List.map_cons, h1]
    · intro e he
      simp only [List.mem_cons, List.mem_append] at he
      rcases he with rfl | he | rfl | he
      · rfl
      · rw [getTimestamp_events] at he
        cases ts <;> simp [isFallback] at he <;> subst he <;> rfl
      · rfl
      · exact h2 e he

/-- A run returns `FLB_ERROR` exactly when one of its `sendRecord` calls failed. -/
theorem flushLoop_error_iff (data : List (Frame Rec)) (s : σ) :
    (flushLoop env p data s).1 = FLB_ERROR ↔
      ∃ e ∈ (flushLoop env p data s).2.2, sendFailed e = true := by
  constructor
  · refine flushLoop_induct env p
      (fun _ _ r => r.1 = FLB_ERROR → ∃ e ∈ r.2.2, sendFailed e = true) ?_ ?_ ?_ ?_ data s
    · intro s h; simp [FLB_OK, FLB_ERROR] at h
    · intro f rest s _ h; simp [FLB_OK, FLB_ERROR] at h
    · intro ts record rest s s1 err _ _
      exact ⟨Event.sendRecord p record (getTimestamp env p ts s).1 (some err), by simp, rfl⟩
    · intro ts record rest s s1 _ ih h
      obtain ⟨e, he, hf⟩ := ih h
      exact ⟨e, by simp [he], hf⟩
  · rintro ⟨e, he, hf⟩
    rcases flushLoop_ret env p data s with h | h
    · rw [(flushLoop_ok env p data s h).2 e he] at hf
      simp at hf
    · exact h

end Loop

/-- A failed send behind a run of calls none of which is a failed send lies in what follows the
run. -/
theorem split_after_clean (a l pre post : List (Event Cfg Cl Rec)) (e : Event Cfg Cl Rec)
    (ha : ∀ x ∈ a, sendFailed x = false) (he : sendFailed e = true)
    (h : a ++ l = pre ++ e :: post) : ∃ pre1, l = pre1 ++ e :: post := by
  induction a generalizing pre with
  | nil => exact ⟨pre, by simpa using h⟩
  | cons x a ih =>
    cases pre with
    | nil =>
      simp only [List.cons_append, List.nil_append, List.cons.injEq] at h
      have hx := ha x (by simp)
      rw [h.1, he] at hx
      simp at hx
    | cons y pre1 =>
      simp only [List.cons_append, List.cons.injEq] at h
      exact ih pre1 (fun x hx => ha x (by simp [hx])) h.2

section Loop2

variable [Inhabited Rec] (env : Env Cfg Cl Rec σ) (p : loki Cfg Cl)

/-- A failed `sendRecord` call ends the run: behind it there is no `GetRecord` and no
`sendRecord` call, and the run returns `FLB_ERROR`. -/
theorem flushLoop_fail_last (data : List (Frame Rec)) (s : σ) :
    ∀ (pre post : List (Event Cfg Cl Rec)) (e : Event Cfg Cl Rec),
      (flushLoop env p data s).2.2 = pre ++ e :: post → sendFailed e = true →
      (flushLoop env p data s).1 = FLB_ERROR ∧
        ∀ x ∈ post, isSend x = false ∧ isGetRecord x = false := by
  refine flushLoop_induct env p
    (fun _ _ r => ∀ (pre post : List (Event Cfg Cl Rec)) (e : Event Cfg Cl Rec),
      r.2.2 = pre ++ e :: post → sendFailed e = true →
      r.1 = FLB_ERROR ∧ ∀ x ∈ post, isSend x = false ∧ isGetRecord x = false)
    ?_ ?_ ?_ ?_ data s
  · intro s pre post e h he
    have hm : e ∈ [(Event.getRecord (-1) : Event Cfg Cl Rec)] := by
      change e ∈ ((FLB_OK, s, [(Event.getRecord (-1) : Event Cfg Cl Rec)]) : Int × σ × _).2.2
      rw [h]; simp
    simp only [List.mem_singleton] at hm
    subst hm
    simp [sendFailed] at he
  · intro f rest s _ pre post e h he
    have hm : e ∈ [(Event.getRecord (GetRecord (some f)).1 : Event Cfg Cl Rec)] := by
      change e ∈ ((FLB_OK, s, [(Event.getRecord (GetRecord (some f)).1 : Event Cfg Cl Rec)]) :
        Int × σ × _).2.2
      rw [h]; simp
    simp only [List.mem_singleton] at hm
    subst hm
    simp [sendFailed] at he
  · intro ts record rest s s1 err _ pre post e h he
    refine ⟨rfl, ?_⟩
    have h1 : (Event.getRecord 0 :: (getTimestamp env p ts s).2) ++
        [Event.sendRecord p record (getTimestamp env p ts s).1 (some err),
         Event.log LogLevel.error p.logger ["msg", "error sending record to Loki", "error", err]]
        = pre ++ e :: post := by simpa using h
    have hclean : ∀ x ∈ (Event.getRecord 0 :: (getTimestamp env p ts s).2 :
        List (Event Cfg Cl Rec)), sendFailed x = false := by
      intro x hx
      rw [getTimestamp_events] at hx
      cases ts <;> simp [isFallback] at hx <;> rcases hx with rfl | rfl <;> rfl
    obtain ⟨pre1, h2⟩ := split_after_clean _ _ pre post e hclean he h1
    cases pre1 with
    | nil =>
      simp only [List.nil_append, List.cons.injEq] at h2
      intro x hx
      rw [← h2.2] at hx
      simp only [List.mem_singleton] at hx
      subst hx
      exact ⟨rfl, rfl⟩
    | cons y pre2 =>
      simp only [List.cons_append, List.cons.injEq] at h2
      cases pre2 with
      | nil =>
        simp only [List.nil_append, List.cons.injEq] at h2
        rw [← h2.2.1] at he
        simp [sendFailed] at he
      | cons z pre3 => simp at h2
  · intro ts record rest s s1 _ ih pre post e h he
    have h1 : (Event.getRecord 0 :: ((getTimestamp env p ts s).2 ++
        [Event.sendRecord p record (getTimestamp env p ts s).1 none])) ++
        (flushLoop env p rest s1).2.2 = pre ++ e :: post := by simpa using h
    have hclean : ∀ x ∈ (Event.getRecord 0 :: ((getTimestamp env p ts s).2 ++
        [Event.sendRecord p record (getTimestamp env p ts s).1 none]) :
        List (Event Cfg Cl Rec)), sendFailed x = false := by
      intro x hx
      rw [getTimestamp_events] at hx
      cases ts <;> simp [isFallback] at hx <;> rcases hx with rfl | rfl | rfl <;> rfl
    obtain ⟨pre1, h2⟩ := split_after_clean _ _ pre post e hclean he h1
    exact ih pre1 post e h2 he

/-- Every `sendRecord` call follows a `GetRecord` call that yielded an entry, one for one. -/
theorem flushLoop_yield_count (data : List (Frame Rec)) (s : σ) :
    (flushLoop env p data s).2.2.countP isYield = (dispatched (flushLoop env p data s).2.2).length := by
  refine flushLoop_induct env p
    (fun _ _ r => r.2.2.countP isYield = (dispatched r.2.2).length) ?_ ?_ ?_ ?_ data s
  · intro s; simp [dispatched, sendArgs, isYield]
  · intro f rest s hf; simp [dispatched, sendArgs, isYield, hf]
  · intro ts record rest s s1 err _
    rw [dispatched_fail_block, getTimestamp_events]
    cases ts <;> simp [isFallback, isYield, List.countP_cons]
  · intro ts record rest s s1 _ ih
    rw [dispatched_ok_block, getTimestamp_events]
    simp only [List.length_cons, ← ih]
    cases ts <;> simp [isFallback, isYield, List.countP_cons, List.countP_append]

/-- The warnings of a run are those of the sent entries whose timestamp takes the fallback
branch, one each. -/
theorem flushLoop_warn_count (data : List (Frame Rec)) (s : σ) :
    (flushLoop env p data s).2.2.countP isWarn =
      ((decodedEntries data).take (dispatched (flushLoop env p data s).2.2).length).countP
        (fun e => isFallback e.1) := by
  refine flushLoop_induct env p
    (fun data _ r => r.2.2.countP isWarn =
      ((decodedEntries data).take (dispatched r.2.2).length).countP (fun e => isFallback e.1))
    ?_ ?_ ?_ ?_ data s
  · intro s; simp [dispatched, sendArgs, isWarn]
  · intro f rest s hf; simp [dispatched, sendArgs, isWarn]
  · intro ts record rest s s1 err _
    rw [dispatched_fail_block, getTimestamp_events, decodedEntries_entry]
    cases ts <;> simp [isFallback, isWarn, List.countP_cons]
  · intro ts record rest s s1 _ ih
    rw [dispatched_ok_block, getTimestamp_events, decodedEntries_entry]
    simp only [List.length_cons, List.take_succ_cons, List.countP_cons, ← ih]
    cases ts <;> simp [isFallback, isWarn, List.countP_cons, List.countP_append]

/-- The push client is handed exactly the recorded `(record, timestamp)` pairs, in order: the
state the run leaves and the results it records are those of applying `sendRecord` to them. -/
theorem flushLoop_sendRun (data : List (Frame Rec)) (s : σ) :
    sendRun env p (dispatched (flushLoop env p data s).2.2) s =
      ((flushLoop env p data s).2.1, (flushLoop env p data s).2.2.filter isSend) := by
  refine flushLoop_induct env p
    (fun _ s r => sendRun env p (dispatched r.2.2) s = (r.2.1, r.2.2.filter isSend))
    ?_ ?_ ?_ ?_ data s
  · intro s; simp [dispatched, sendArgs, sendRun, isSend]
  · intro f rest s _; simp [dispatched, sendArgs, sendRun, isSend]
  · intro ts record rest s s1 err h
    rw [dispatched_fail_block, getTimestamp_events]
    simp only [sendRun, h]
    cases ts <;> simp [isFallback, isSend, List.filter_cons]
  · intro ts record rest s s1 h ih
    rw [dispatched_ok_block, getTimestamp_events]
    simp only [sendRun, h, ih]
    cases ts <;> simp [isFallback, isSend, List.filter_cons]

end Loop2

/-! ## `FLBPluginFlushCtx` on a registered identifier -/

theorem flush_registered [Inhabited Rec] (env : Env Cfg Cl Rec σ) (id : String)
    (data : List (Frame Rec)) (w : World Cfg Cl σ) (p : loki Cfg Cl)
    (h : mapGet w.plugins id = some p) :
    FLBPluginFlushCtx env id data w =
      ⟨(flushLoop env p data w.ext).1, ⟨w.plugins, (flushLoop env p data w.ext).2.1⟩,
        Event.newDecoder :: (flushLoop env p data w.ext).2.2⟩ := by
  simp [FLBPluginFlushCtx, h]

theorem flush_not_registered [Inhabited Rec] (env : Env Cfg Cl Rec σ) (id : String)
    (data : List (Frame Rec)) (w : World Cfg Cl σ) (h : mapGet w.plugins id = none) :
    FLBPluginFlushCtx env id data w =
      ⟨FLB_ERROR, w,
        [Event.log LogLevel.error globalLogger ["[flb-go]", "plugin not initialized", "id", id]]⟩ := by
  simp [FLBPluginFlushCtx, h]

theorem dispatched_newDecoder (evs : List (Event Cfg Cl Rec)) :
    dispatched (Event.newDecoder :: evs) = dispatched evs := by
  simp [dispatched, sendArgs]

/-- C4: on a registered identifier, the records passed to `sendRecord` are, in call order, an
initial part of the records of the entries the decoder yields on the buffer; the push client
is handed exactly these records with their timestamps, in this order (the state it ends in and
the results recorded are those of applying `sendRecord` to them one after the other); and a
`sendRecord` call that fails is the last dispatch: no `GetRecord` and no `sendRecord` call
follows it, and `FLBPluginFlushCtx` returns `FLB_ERROR`. -/
theorem flush_dispatch_in_order [Inhabited Rec] (env : Env Cfg Cl Rec σ) (id : String)
    (data : List (Frame Rec)) (w : World Cfg Cl σ) (plugin : loki Cfg Cl)
    (hreg : mapGet w.plugins id = some plugin) :
    (dispatched (FLBPluginFlushCtx env id data w).events).map Prod.fst <+:
        (decodedEntries data).map Prod.snd ∧
      sendRun env plugin (dispatched (FLBPluginFlushCtx env id data w).events) w.ext =
        ((FLBPluginFlushCtx env id data w).world.ext,
          (FLBPluginFlushCtx env id data w).events.filter isSend) ∧
      ∀ (pre post : List (Event Cfg Cl Rec)) (e : Event Cfg Cl Rec),
        (FLBPluginFlushCtx env id data w).events = pre ++ e :: post → sendFailed e = true →
        (FLBPluginFlushCtx env id data w).ret = FLB_ERROR ∧
          ∀ x ∈ post, isSend x = false ∧ isGetRecord x = false := by
  rw [flush_registered env id data w plugin hreg]
  refine ⟨?_, ?_, ?_⟩
  · simp only [dispatched_newDecoder]
    exact flushLoop_sent_initial env plugin data w.ext
  · simp only [dispatched_newDecoder]
    rw [flushLoop_sendRun env plugin data w.ext]
    simp [List.filter_cons, isSend]
  · intro pre post e h he
    have hclean : ∀ x ∈ [(Event.newDecoder : Event Cfg Cl Rec)], sendFailed x = false := by
      intro x hx
      simp only [List.mem_singleton] at hx
      subst hx
      rfl
    obtain ⟨pre1, h1⟩ := split_after_clean [Event.newDecoder] _ pre post e hclean he
      (by simpa using h)
    exact flushLoop_fail_last env plugin data w.ext pre1 post e h1 he

/-- C5, as amended: on a registered identifier, the number of `sendRecord` calls equals the
number of `GetRecord` calls of that flush that yielded an entry; it is at most the number of
entries the decoder yields on the buffer before the first decode fault or the end of the
buffer, and equal to it when no `sendRecord` call fails. -/
theorem flush_attempts_count [Inhabited Rec] (env : Env Cfg Cl Rec σ) (id : String)
    (data : List (Frame Rec)) (w : World Cfg Cl σ) (plugin : loki Cfg Cl)
    (hreg : mapGet w.plugins id = some plugin) :
    (dispatched (FLBPluginFlushCtx env id data w).events).length =
        (FLBPluginFlushCtx env id data w).events.countP isYield ∧
      (dispatched (FLBPluginFlushCtx env id data w).events).length ≤
        (decodedEntries data).length ∧
      ((∀ e ∈ (FLBPluginFlushCtx env id data w).events, sendFailed e = false) →
        (dispatched (FLBPluginFlushCtx env id data w).events).length =
          (decodedEntries data).length) := by
  rw [flush_registered env id data w plugin hreg]
  simp only [dispatched_newDecoder]
  refine ⟨?_, ?_, ?_⟩
  · rw [List.countP_cons]
    simp [isYield, flushLoop_yield_count]
  · have h := (flushLoop_sent_initial env plugin data w.ext).length_le
    simpa using h
  · intro hall
    rcases flushLoop_ret env plugin data w.ext with hok | herr
    · have h := congrArg List.length (flushLoop_ok env plugin data w.ext hok).1
      simpa using h
    · obtain ⟨e, he, hf⟩ := (flushLoop_error_iff env plugin data w.ext).1 herr
      rw [hall e (by simp [he])] at hf
      simp at hf

/-- C6: whatever the registry, the identifier, the buffer and the push client do,
`FLBPluginFlushCtx` returns `FLB_OK` or `FLB_ERROR`, never `FLB_RETRY`, and it returns
`FLB_ERROR` whenever a `sendRecord` call failed. -/
theorem flush_never_retry [Inhabited Rec] (env : Env Cfg Cl Rec σ) (id : String)
    (data : List (Frame Rec)) (w : World Cfg Cl σ) :
    ((FLBPluginFlushCtx env id data w).ret = FLB_OK ∨
        (FLBPluginFlushCtx env id data w).ret = FLB_ERROR) ∧
      (FLBPluginFlushCtx env id data w).ret ≠ FLB_RETRY ∧
      ((∃ e ∈ (FLBPluginFlushCtx env id data w).events, sendFailed e = true) →
        (FLBPluginFlushCtx env id data w).ret = FLB_ERROR) := by
  cases hreg : mapGet w.plugins id with
  | none =>
    rw [flush_not_registered env id data w hreg]
    simp [FLB_ERROR, FLB_RETRY]
  | some plugin =>
    rw [flush_registered env id data w plugin hreg]
    refine ⟨flushLoop_ret env plugin data w.ext, ?_, ?_⟩
    · rcases flushLoop_ret env plugin data w.ext with h | h <;>
        simp [h, FLB_OK, FLB_ERROR, FLB_RETRY]
    · rintro ⟨e, he, hf⟩
      simp only [List.mem_cons] at he
      rcases he with rfl | he
      · simp [sendFailed] at hf
      · exact (flushLoop_error_iff env plugin data w.ext).2 ⟨e, he, hf⟩

/-- For `t < 2^63`, `time.Unix(int64(t), 0)` reads back as `t` seconds since the epoch and zero
nanoseconds. -/
theorem timeUnix_of_uint64 (t : Nat) (h : t < 2 ^ 63) :
    (timeUnix (int64OfUint64 t) 0).unixSec = t ∧ (timeUnix (int64OfUint64 t) 0).nsec = 0 := by
  have h64 : t % 2 ^ 64 = t := Nat.mod_eq_of_lt (by omega)
  have h1 : int64OfUint64 t = t := by
    unfold int64OfUint64 wrapInt64
    rw [h64]
    omega
  have hu : unixToInternal = 62135596800 := by decide
  refine ⟨?_, ?_⟩
  · simp only [Time.unixSec, timeUnix, h1, hu]
    simp only [wrapInt64]
    norm_num
    omega
  · simp [Time.nsec, timeUnix]

/-- C8, as amended: when the `i`-th decoded entry has a `uint64` timestamp `t` and is
dispatched, the `i`-th pair the push client is handed is the record of that entry with the
timestamp `time.Unix(int64(t), 0)`; for every `t < 2^63` that is the instant exactly `t` whole
seconds after the Unix epoch, with zero nanoseconds. -/
theorem flush_uint64_timestamp [Inhabited Rec] (env : Env Cfg Cl Rec σ) (id : String)
    (data : List (Frame Rec)) (w : World Cfg Cl σ) (plugin : loki Cfg Cl) (i t : Nat)
    (record : Rec) (d : Rec × Time)
    (hreg : mapGet w.plugins id = some plugin)
    (hentry : (decodedEntries data)[i]? = some (TsValue.uint64 t, record))
    (hsent : (dispatched (FLBPluginFlushCtx env id data w).events)[i]? = some d) :
    d = (record, timeUnix (int64OfUint64 t) 0) ∧
      sendRun env plugin (dispatched (FLBPluginFlushCtx env id data w).events) w.ext =
        ((FLBPluginFlushCtx env id data w).world.ext,
          (FLBPluginFlushCtx env id data w).events.filter isSend) ∧
      (t < 2 ^ 63 → d.2.unixSec = t ∧ d.2.nsec = 0) := by
  rw [flush_registered env id data w plugin hreg] at hsent ⊢
  simp only [dispatched_newDecoder] at hsent ⊢
  obtain ⟨ts, s1, h1, h2⟩ := flushLoop_dispatched_get env plugin data w.ext i d hsent
  rw [hentry] at h1
  simp only [Option.some.injEq, Prod.mk.injEq] at h1
  obtain ⟨hts, hrec⟩ := h1
  subst hts
  have h3 : d.2 = timeUnix (int64OfUint64 t) 0 := by rw [h2]; rfl
  refine ⟨Prod.ext hrec.symm h3, ?_, ?_⟩
  · rw [flushLoop_sendRun env plugin data w.ext]
    simp [List.filter_cons, isSend]
  · intro hb
    rw [h3]
    exact timeUnix_of_uint64 t hb

/-- C9: when the `i`-th decoded entry has an `output.FLBTime` timestamp and is dispatched, the
`i`-th pair the push client is handed is the record of that entry with exactly the `time.Time`
the value carries (the state the push client ends in and the results recorded are those of
applying `sendRecord` to the recorded pairs one after the other); and the warnings of the flush
are, one for one, those of the dispatched entries whose timestamp is neither `FLBTime` nor
`uint64`, so that none is emitted for this entry. -/
theorem flush_flbTime_as_is [Inhabited Rec] (env : Env Cfg Cl Rec σ) (id : String)
    (data : List (Frame Rec)) (w : World Cfg Cl σ) (plugin : loki Cfg Cl) (i : Nat) (ft : Time)
    (record : Rec) (d : Rec × Time)
    (hreg : mapGet w.plugins id = some plugin)
    (hentry : (decodedEntries data)[i]? = some (TsValue.flbTime ft, record))
    (hsent : (dispatched (FLBPluginFlushCtx env id data w).events)[i]? = some d) :
    d = (record, ft) ∧
      sendRun env plugin (dispatched (FLBPluginFlushCtx env id data w).events) w.ext =
        ((FLBPluginFlushCtx env id data w).world.ext,
          (FLBPluginFlushCtx env id data w).events.filter isSend) ∧
      (FLBPluginFlushCtx env id data w).events.countP isWarn =
        ((decodedEntries data).take
          (dispatched (FLBPluginFlushCtx env id data w).events).length).countP
            (fun e => isFallback e.1) := by
  rw [flush_registered env id data w plugin hreg] at hsent ⊢
  simp only [dispatched_newDecoder] at hsent ⊢
  obtain ⟨ts, s1, h1, h2⟩ := flushLoop_dispatched_get env plugin data w.ext i d hsent
  rw [hentry] at h1
  simp only [Option.some.injEq, Prod.mk.injEq] at h1
  obtain ⟨hts, hrec⟩ := h1
  subst hts
  refine ⟨?_, ?_, ?_⟩
  · have h3 : d.2 = ft := by rw [h2]; rfl
    exact Prod.ext hrec.symm h3
  · rw [flushLoop_sendRun env plugin data w.ext]
    simp [List.filter_cons, isSend]
  · rw [List.countP_cons]
    simp [isWarn, flushLoop_warn_count]

/-! ## The theorems on concrete runs -/

theorem init_duplicate_rejected_witness :
    (FLBPluginInit (demoEnv none) (demoCtx "a" "http://x") emptyWorld).ret = FLB_OK ∧
      demoCtx "a" "http://y" "id" = demoCtx "a" "http://x" "id" ∧
      (FLBPluginInit (demoEnv none) (demoCtx "a" "http://y")
        (runCalls (demoEnv none)
          [HostCall.init (demoCtx "b" "http://z"), HostCall.flush "a" demoBatchHi]
          (FLBPluginInit (demoEnv none) (demoCtx "a" "http://x") emptyWorld).world)).ret
        = FLB_ERROR ∧
      (FLBPluginInit (demoEnv none) (demoCtx "a" "http://y")
        (runCalls (demoEnv none)
          [HostCall.init (demoCtx "b" "http://z"), HostCall.flush "a" demoBatchHi]
          (FLBPluginInit (demoEnv none) (demoCtx "a" "http://x") emptyWorld).world)).world.plugins
        = [("a", ⟨"http://x", "http://x", logWith newLogger ["id", "a"]⟩),
           ("b", ⟨"http://z", "http://z", logWith newLogger ["id", "b"]⟩)] :=
  ⟨by decide, by decide,
    (init_duplicate_rejected (demoEnv none) (demoCtx "a" "http://x") (demoCtx "a" "http://y")
      emptyWorld [HostCall.init (demoCtx "b" "http://z"), HostCall.flush "a" demoBatchHi]
      (by decide) (by decide)).1,
    by decide⟩

theorem init_failure_keeps_registry_witness :
    (demoEnv none).parseConfig (demoCtx "b" "bad") = Except.ok "bad" ∧
      (demoEnv none).newPlugin "bad" (logWith newLogger ["id", demoCtx "b" "bad" "id"])
        demoWorld.ext = (Except.error "invalid client config", demoState) ∧
      (FLBPluginInit (demoEnv none) (demoCtx "b" "bad") demoWorld).ret = FLB_ERROR ∧
      (FLBPluginInit (demoEnv none) (demoCtx "b" "bad") demoWorld).world.plugins
        = demoWorld.plugins :=
  ⟨rfl, rfl,
    init_failure_keeps_registry (demoEnv none) (demoCtx "b" "bad") demoWorld
      (Or.inr ⟨"bad", "invalid client config", demoState, rfl, rfl⟩)⟩

theorem flush_unregistered_witness :
    mapGet emptyWorld.plugins "a" = none ∧
      (FLBPluginFlushCtx (demoEnv none) "a" demoBatchHi emptyWorld).ret = FLB_ERROR ∧
      dispatched (FLBPluginFlushCtx (demoEnv none) "a" demoBatchHi emptyWorld).events = [] :=
  ⟨rfl, (flush_unregistered (demoEnv none) "a" demoBatchHi emptyWorld rfl).1,
    (flush_unregistered (demoEnv none) "a" demoBatchHi emptyWorld rfl).2.2.2.1⟩

theorem flush_dispatch_in_order_witness :
    mapGet demoWorld.plugins "a" = some (demoPlugin "a") ∧
      (FLBPluginFlushCtx (demoEnv (some 1)) "a" demoBatch3 demoWorld).world.ext.received =
        [("a", [("msg", "one")], timeUnix 1 0), ("a", [("msg", "two")], timeUnix 1 0)] ∧
      (dispatched (FLBPluginFlushCtx (demoEnv (some 1)) "a" demoBatch3 demoWorld).events).map
          Prod.fst <+: (decodedEntries demoBatch3).map Prod.snd ∧
      sendRun (demoEnv (some 1)) (demoPlugin "a")
          (dispatched (FLBPluginFlushCtx (demoEnv (some 1)) "a" demoBatch3 demoWorld).events)
          demoWorld.ext =
        ((FLBPluginFlushCtx (demoEnv (some 1)) "a" demoBatch3 demoWorld).world.ext,
          (FLBPluginFlushCtx (demoEnv (some 1)) "a" demoBatch3 demoWorld).events.filter isSend) :=
  ⟨by decide, by decide,
    (flush_dispatch_in_order (demoEnv (some 1)) "a" demoBatch3 demoWorld (demoPlugin "a")
      (by decide)).1,
    (flush_dispatch_in_order (demoEnv (some 1)) "a" demoBatch3 demoWorld (demoPlugin "a")
      (by decide)).2.1⟩

/-- C5, as the claim states it, fails: `sendRecord` rejects the first of three well-formed
entries, so one dispatch attempt is made while the decoder yields three entries before the end
of the buffer. -/
theorem flush_attempts_counterexample :
    mapGet demoWorld.plugins "a" = some (demoPlugin "a") ∧
      (dispatched (FLBPluginFlushCtx (demoEnv (some 0)) "a" demoBatch3 demoWorld).events).length
        = 1 ∧
      (decodedEntries demoBatch3).length = 3 ∧
      (FLBPluginFlushCtx (demoEnv (some 0)) "a" demoBatch3 demoWorld).ret = FLB_ERROR := by
  decide

theorem flush_attempts_count_witness :
    mapGet demoWorld.plugins "a" = some (demoPlugin "a") ∧
      (dispatched (FLBPluginFlushCtx (demoEnv (some 1)) "a" demoBatch3 demoWorld).events).length
        = 2 ∧
      (dispatched (FLBPluginFlushCtx (demoEnv (some 1)) "a" demoBatch3 demoWorld).events).length =
        (FLBPluginFlushCtx (demoEnv (some 1)) "a" demoBatch3 demoWorld).events.countP isYield :=
  ⟨by decide, by decide,
    (flush_attempts_count (demoEnv (some 1)) "a" demoBatch3 demoWorld (demoPlugin "a")
      (by decide)).1⟩

/-- C7: the code at the failing input.  On a registered identifier and a buffer with a
malformed object between two well-formed entries, and no send failure, the loop ends at the
malformed object: `FLBPluginFlushCtx` returns `FLB_OK` although the push client was handed the
first record only and the second entry of the batch was neither decoded nor dispatched. -/
theorem flush_ok_despite_fault :
    mapGet demoWorld.plugins "a" = some (demoPlugin "a") ∧
      (FLBPluginFlushCtx (demoEnv none) "a" demoBatchFault demoWorld).ret = FLB_OK ∧
      (FLBPluginFlushCtx (demoEnv none) "a" demoBatchFault demoWorld).events =
        [Event.newDecoder, Event.getRecord 0,
         Event.sendRecord (demoPlugin "a") [("msg", "one")] (timeUnix 1 0) none,
         Event.getRecord (-1)] ∧
      (FLBPluginFlushCtx (demoEnv none) "a" demoBatchFault demoWorld).world.ext.received =
        [("a", [("msg", "one")], timeUnix 1 0)] ∧
      (batchEntries demoBatchFault).map Prod.snd = [[("msg", "one")], [("msg", "two")]] := by
  decide

/-- C8, as the claim states it, fails: for the `uint64` timestamp `t = 2^63` the conversion
`int64(t)` is `-2^63`, and the push client is handed the instant `2^63` seconds before the
epoch, not `2^63` seconds after it. -/
theorem flush_uint64_wraps :
    (9223372036854775808 : Nat) < 2 ^ 64 ∧
      (decodedEntries demoBatchBig)[0]? =
        some (TsValue.uint64 9223372036854775808, [("msg", "hi")]) ∧
      (FLBPluginFlushCtx (demoEnv none) "a" demoBatchBig demoWorld).world.ext.received.map
          (fun d => (d.2.1, d.2.2.unixSec)) = [([("msg", "hi")], -9223372036854775808)] ∧
      (dispatched (FLBPluginFlushCtx (demoEnv none) "a" demoBatchBig demoWorld).events).map
          (fun d => (d.1, d.2.unixSec)) = [([("msg", "hi")], -9223372036854775808)] ∧
      (-9223372036854775808 : Int) ≠ ((9223372036854775808 : Nat) : Int) := by
  decide

theorem flush_uint64_timestamp_witness :
    mapGet demoWorld.plugins "a" = some (demoPlugin "a") ∧
      (decodedEntries demoBatchHi)[0]? = some (TsValue.uint64 1700000000, [("msg", "hi")]) ∧
      (dispatched (FLBPluginFlushCtx (demoEnv none) "a" demoBatchHi demoWorld).events)[0]? =
        some ([("msg", "hi")], timeUnix 1700000000 0) ∧
      (FLBPluginFlushCtx (demoEnv none) "a" demoBatchHi demoWorld).world.ext.received =
        [("a", [("msg", "hi")], timeUnix 1700000000 0)] ∧
      (1700000000 : Nat) < 2 ^ 63 ∧
      (timeUnix 1700000000 0).unixSec = ((1700000000 : Nat) : Int) ∧
      (timeUnix 1700000000 0).nsec = 0 ∧
      (timeUnix 1700000000 0).utc = (2023, 11, 14, 22, 13, 20) :=
  ⟨by decide, by decide, by decide, by decide, by decide,
    ((flush_uint64_timestamp (demoEnv none) "a" demoBatchHi demoWorld (demoPlugin "a") 0
      1700000000 [("msg", "hi")] ([("msg", "hi")], timeUnix 1700000000 0) (by decide)
      (by decide) (by decide)).2.2 (by decide)).1,
    ((flush_uint64_timestamp (demoEnv none) "a" demoBatchHi demoWorld (demoPlugin "a") 0
      1700000000 [("msg", "hi")] ([("msg", "hi")], timeUnix 1700000000 0) (by decide)
      (by decide) (by decide)).2.2 (by decide)).2,
    by decide⟩

theorem flush_flbTime_as_is_witness :
    mapGet demoWorld.plugins "a" = some (demoPlugin "a") ∧
      (decodedEntries demoBatchTime)[0]? = some (TsValue.flbTime demoTime, [("msg", "hi")]) ∧
      (dispatched (FLBPluginFlushCtx (demoEnv none) "a" demoBatchTime demoWorld).events)[0]? =
        some ([("msg", "hi")], demoTime) ∧
      (FLBPluginFlushCtx (demoEnv none) "a" demoBatchTime demoWorld).world.ext.received =
        [("a", [("msg", "hi")], demoTime)] ∧
      (FLBPluginFlushCtx (demoEnv none) "a" demoBatchTime demoWorld).events.countP isWarn = 0 ∧
      sendRun (demoEnv none) (demoPlugin "a")
          (dispatched (FLBPluginFlushCtx (demoEnv none) "a" demoBatchTime demoWorld).events)
          demoWorld.ext =
        ((FLBPluginFlushCtx (demoEnv none) "a" demoBatchTime demoWorld).world.ext,
          (FLBPluginFlushCtx (demoEnv none) "a" demoBatchTime demoWorld).events.filter isSend) :=
  ⟨by decide, by decide, by decide, by decide, by decide,
    (flush_flbTime_as_is (demoEnv none) "a" demoBatchTime demoWorld (demoPlugin "a") 0 demoTime
      [("msg", "hi")] ([("msg", "hi")], demoTime) (by decide) (by decide) (by decide)).2.1⟩

theorem exit_stops_each_once_witness :
    (demoWorld2.plugins.map Prod.fst).Nodup ∧
      (FLBPluginExit (demoEnv none) demoWorld2).world.ext.stops = ["b", "a"] ∧
      (FLBPluginExit (demoEnv none) demoWorld2).events = [Event.stop "b", Event.stop "a"] ∧
      (FLBPluginExit (demoEnv none) demoWorld2).ret = FLB_OK ∧
      (FLBPluginExit (demoEnv none) demoWorld2).world.ext =
        stopRun (demoEnv none) (demoWorld2.plugins.map (fun e => e.2.client)) demoWorld2.ext ∧
      ∀ c ∈ stopped (FLBPluginExit (demoEnv none) demoWorld2).events,
        ∃ id plugin, mapGet demoWorld2.plugins id = some plugin ∧ plugin.client = c :=
  ⟨by decide, by decide, by decide,
    (exit_stops_each_once (demoEnv none) demoWorld2).1,
    (exit_stops_each_once (demoEnv none) demoWorld2).2.2.2.2.1,
    (exit_stops_each_once (demoEnv none) demoWorld2).2.2.2.2.2.2.1 (by decide)⟩

end OutLoki
